import Mathlib

/-!
Verification of the workflow-engine core of the news-briefing-generator
repository: a shallow embedding of the parameter resolver
(config/config_manager.py), the task abstraction and human-review protocol
(model/task/base.py), the workflow execution engine
(workflow/workflow_handler.py) and the concurrent progress collector
(utils/async_progress.py), together with theorems settling the frozen
claims about them.

Conventions of the embedding:
- Python dictionaries are association lists (`Dict`), with `dinsert`
  reproducing CPython's insert-or-overwrite-in-place semantics and `dfind`
  key lookup.
- Python runtime values flowing through configuration and task parameters
  are modelled by the `PyVal` universe (strings, ints, bools, lists,
  dicts, None).  Floats are outside the model.
- Wall-clock data (the `created_at` timestamp field of TaskResult,
  produced by get_utc_now_formatted) is not modelled; every other field
  of TaskResult is.
- Exceptions are modelled with `Except String`; interactive input
  (typer prompts) is an explicit list of entered values; the eventual
  outcome of an awaited coroutine is an `Except String` value.
-/

namespace NBG

/-- Python dictionary with string keys, as an association list in insertion
order. -/
abbrev Dict (V : Type) : Type := List (String × V)

/-- Key lookup in a python dict (first matching key). -/
def dfind {V : Type} (k : String) : Dict V → Option V
  | [] => Option.none
  | (k', v) :: rest => if k' = k then some v else dfind k rest

/-- CPython dict assignment `d[k] = v`: overwrite in place if the key is
present, append otherwise. -/
def dinsert {V : Type} (k : String) (v : V) : Dict V → Dict V
  | [] => [(k, v)]
  | (k', v') :: rest => if k' = k then (k, v) :: rest else (k', v') :: dinsert k v rest

/-- The keys of a dict, in order. -/
def dkeys {V : Type} (d : Dict V) : List String := d.map Prod.fst

/-- Python runtime values appearing in settings files, workflow parameter
maps and task results.  Floats are outside the model. -/
inductive PyVal : Type where
  | str : String → PyVal
  | int : Int → PyVal
  | bool : Bool → PyVal
  | noneV : PyVal
  | list : List PyVal → PyVal
  | dict : List (String × PyVal) → PyVal

/-- Python `is None` test (`noneV` is the unique None object). -/
def PyVal.isNone : PyVal → Bool
  | .noneV => true
  | _ => false

/-- Python truthiness of a value. -/
def PyVal.isTruthy : PyVal → Bool
  | .str s => !(s = "")
  | .int n => !(n = 0)
  | .bool b => b
  | .noneV => false
  | .list xs => !xs.isEmpty
  | .dict xs => !xs.isEmpty

/-- Python `"sep".join(parts)`. -/
def pyJoin (sep : String) : List String → String
  | [] => ""
  | [s] => s
  | s :: rest => s ++ sep ++ pyJoin sep rest

/-- Python `s.split(sep)` for a single-character separator: accumulates
characters between separators; always returns at least one component
(python's `"".split(".") == [""]`). -/
def pySplitAux (sep : Char) : List Char → String → List String
  | [], acc => [acc]
  | c :: rest, acc =>
      if c = sep then acc :: pySplitAux sep rest "" else pySplitAux sep rest (acc.push c)

/-- Python `s.split(sep)` for a single-character separator. -/
def pySplit (s : String) (sep : Char) : List String := pySplitAux sep s.data ""

/-- `path.split(".")`, as used by dot-notation traversal. -/
def splitDot (s : String) : List String := pySplit s '.'

/-- ASCII uppercasing of one character (configuration keys are ASCII). -/
def charUpper (c : Char) : Char :=
  if 'a' ≤ c ∧ c ≤ 'z' then Char.ofNat (c.toNat - 32) else c

/-- ASCII lowercasing of one character. -/
def charLower (c : Char) : Char :=
  if 'A' ≤ c ∧ c ≤ 'Z' then Char.ofNat (c.toNat + 32) else c

/-- Python `s.upper()` on ASCII text. -/
def pyUpper (s : String) : String := String.mk (s.data.map charUpper)

/-- Python `s.lower()` on ASCII text. -/
def pyLower (s : String) : String := String.mk (s.data.map charLower)

/-- Python `s.replace(old, new)` for single-character arguments, as in
`key.replace("_", "-")`. -/
def pyReplaceChar (s : String) (old new : Char) : String :=
  String.mk (s.data.map fun c => if c = old then new else c)

/-- Python `s.strip()`: remove whitespace from both ends. -/
def pyTrim (s : String) : String :=
  String.mk (((s.data.dropWhile Char.isWhitespace).reverse.dropWhile
    Char.isWhitespace).reverse)

/-- Digit-string accumulator for `int(...)`. -/
def parseDigitsAux : List Char → Nat → Option Nat
  | [], acc => some acc
  | c :: rest, acc =>
      if c.isDigit then parseDigitsAux rest (acc * 10 + (c.toNat - 48))
      else Option.none

/-- Python `int(s)`: optional surrounding whitespace, optional sign, then
decimal digits; anything else raises ValueError (`none` here). -/
def pyParseInt (s : String) : Option Int :=
  match (pyTrim s).data with
  | [] => Option.none
  | '-' :: rest =>
      match rest with
      | [] => Option.none
      | _ => (parseDigitsAux rest 0).map fun n => -(n : Int)
  | '+' :: rest =>
      match rest with
      | [] => Option.none
      | _ => (parseDigitsAux rest 0).map fun n => (n : Int)
  | cs => (parseDigitsAux cs 0).map fun n => (n : Int)

mutual

/-- Python `repr` of a value (used by `str` on containers). -/
def pyRepr : PyVal → String
  | .str s => "'" ++ s ++ "'"
  | .int n => toString n
  | .bool b => if b then "True" else "False"
  | .noneV => "None"
  | .list xs => "[" ++ pyJoin ", " (pyReprList xs) ++ "]"
  | .dict xs => "\x7b" ++ pyJoin ", " (pyReprEntries xs) ++ "\x7d"

/-- `repr` of each element of a python list. -/
def pyReprList : List PyVal → List String
  | [] => []
  | v :: rest => pyRepr v :: pyReprList rest

/-- `repr` of each `key: value` entry of a python dict. -/
def pyReprEntries : List (String × PyVal) → List String
  | [] => []
  | (k, v) :: rest => ("'" ++ k ++ "': " ++ pyRepr v) :: pyReprEntries rest

end

/-- Python `str` of a value. -/
def pyStr : PyVal → String
  | .str s => s
  | v => pyRepr v

/-! ## Parameter resolver (config/config_manager.py) -/

/-- ConfigSource enum: the precedence tier that produced a resolved value. -/
inductive ConfigSource : Type where
  | CLI_ARGUMENT
  | WORKFLOW
  | ENVIRONMENT_VARIABLE
  | ENVIRONMENT_SETTINGS
  | BASE_SETTINGS
  | DEFAULT
  deriving DecidableEq, Repr

/-- Parameter dataclass: a configuration value with source tracking. -/
structure Parameter : Type where
  value : PyVal
  source : ConfigSource

/-- The state a ConfigManager instance reads during `get_param`: the parsed
CLI arguments of the typer context (`None` when `typer_ctx is None`), the
process environment, and the two loaded settings files. -/
structure ConfigState : Type where
  typerParams : Option (Dict PyVal)
  environ : Dict String
  env_settings : Dict PyVal
  base_settings : Dict PyVal

/-- `ConfigManager._get_from_dict`: dot-notation traversal through nested
mappings.  Python returns `None` both for a missing path and for a stored
null; any `KeyError`/`TypeError`/`AttributeError` during traversal is
caught and yields `None`. -/
def getFromDictAux : PyVal → List String → PyVal
  | v, [] => v
  | .dict entries, k :: rest =>
      match dfind k entries with
      | some v => getFromDictAux v rest
      | Option.none => .noneV
  | _, _ :: _ => .noneV

/-- `ConfigManager._get_from_dict(config_dict, path)`. -/
def getFromDict (configDict : Dict PyVal) (path : String) : PyVal :=
  getFromDictAux (.dict configDict) (splitDot path)

/-- `get_param`'s inner helper `try_get_param`: try the scoped key
`"{scope}.{param_key}"` first when a (non-empty) scope is given, then fall
back to the plain key. -/
def tryGetParam (params : Dict PyVal) (paramKey : String) (scope : Option String) : PyVal :=
  match scope with
  | some s =>
      if s = "" then getFromDict params paramKey
      else
        let value := getFromDict params (s ++ "." ++ paramKey)
        if !value.isNone then value else getFromDict params paramKey
  | Option.none => getFromDict params paramKey

/-- `ConfigManager._get_cli_param`: look up the hyphenated key in the typer
context's parsed arguments, falling back to the single-character short
flag; the value found is passed through `str`.  An empty key makes the
short-flag indexing raise, which the function catches and treats as "not
found". -/
def getCliParam (typerParams : Option (Dict PyVal)) (key : String) : Option String :=
  match typerParams with
  | Option.none => Option.none
  | some ps =>
      let cliArg := pyReplaceChar key '_' '-'
      match dfind cliArg ps with
      | some v => some (pyStr v)
      | Option.none =>
          match key.data with
          | [] => Option.none
          | c :: _ =>
              match dfind (String.singleton c) ps with
              | some v => some (pyStr v)
              | Option.none => Option.none

/-- The `NBG_`-prefixed environment variable name derived from a key. -/
def envVarName (key : String) : String := "NBG_" ++ pyUpper key

/-- `ConfigManager.get_param`: resolve a parameter through the precedence
chain CLI argument > workflow parameters > `NBG_` environment variable >
environment settings file > base settings file > caller default, returning
the value together with its source tag.  `workflow_params or {}` treats an
absent map as empty, and the workflow tier is consulted without the task
scope. -/
def getParam (st : ConfigState) (key : String) (workflowParams : Option (Dict PyVal))
    (taskScope : Option String) (default : PyVal) : Parameter :=
  match getCliParam st.typerParams key with
  | some cliValue => ⟨.str cliValue, ConfigSource.CLI_ARGUMENT⟩
  | Option.none =>
      let resolvedWorkflowParam :=
        tryGetParam (workflowParams.getD []) key Option.none
      if !resolvedWorkflowParam.isNone then
        ⟨resolvedWorkflowParam, ConfigSource.WORKFLOW⟩
      else
        match dfind (envVarName key) st.environ with
        | some envVar => ⟨.str envVar, ConfigSource.ENVIRONMENT_VARIABLE⟩
        | Option.none =>
            let envValue := tryGetParam st.env_settings key taskScope
            if !envValue.isNone then ⟨envValue, ConfigSource.ENVIRONMENT_SETTINGS⟩
            else
              let baseValue := tryGetParam st.base_settings key taskScope
              if !baseValue.isNone then ⟨baseValue, ConfigSource.BASE_SETTINGS⟩
              else ⟨default, ConfigSource.DEFAULT⟩

/-- The value each single tier of `get_param` would contribute for a given
lookup (`none` when that tier has no match); the DEFAULT tier always
matches with the caller's default. -/
def tierValue (st : ConfigState) (key : String) (workflowParams : Option (Dict PyVal))
    (taskScope : Option String) (default : PyVal) : ConfigSource → Option PyVal
  | .CLI_ARGUMENT => (getCliParam st.typerParams key).map PyVal.str
  | .WORKFLOW =>
      let v := tryGetParam (workflowParams.getD []) key Option.none
      if v.isNone then Option.none else some v
  | .ENVIRONMENT_VARIABLE => (dfind (envVarName key) st.environ).map PyVal.str
  | .ENVIRONMENT_SETTINGS =>
      let v := tryGetParam st.env_settings key taskScope
      if v.isNone then Option.none else some v
  | .BASE_SETTINGS =>
      let v := tryGetParam st.base_settings key taskScope
      if v.isNone then Option.none else some v
  | .DEFAULT => some default

/-- Position of a tier in the precedence chain (0 = strongest). -/
def srcRank : ConfigSource → Nat
  | .CLI_ARGUMENT => 0
  | .WORKFLOW => 1
  | .ENVIRONMENT_VARIABLE => 2
  | .ENVIRONMENT_SETTINGS => 3
  | .BASE_SETTINGS => 4
  | .DEFAULT => 5

/-! ## Task abstraction and human-review protocol (model/task/base.py) -/

/-- The python types a tracked parameter value can have in the model
(`float` is outside the model). -/
inductive PyType : Type where
  | bool | int | list | str | dict | noneType
  deriving DecidableEq

/-- `type(v)` of a modelled python value. -/
def pyType : PyVal → PyType
  | .bool _ => .bool
  | .int _ => .int
  | .str _ => .str
  | .list _ => .list
  | .dict _ => .dict
  | .noneV => .noneType

/-- `__name__` of a python type, as used in the TypeError message of
`_update_task_parameters`. -/
def pyTypeName : PyType → String
  | .bool => "bool"
  | .int => "int"
  | .list => "list"
  | .str => "str"
  | .dict => "dict"
  | .noneType => "NoneType"

/-- `isinstance(v, t)` for modelled values; `bool` is a subclass of `int`
in python. -/
def pyIsinstance (v : PyVal) (t : PyType) : Bool :=
  match v, t with
  | .bool _, .bool => true
  | .bool _, .int => true
  | .int _, .int => true
  | .str _, .str => true
  | .list _, .list => true
  | .dict _, .dict => true
  | .noneV, .noneType => true
  | _, _ => false

/-- Python `s.strip(chars)`: remove the given characters from both ends. -/
def stripChars (s : String) (cs : List Char) : String :=
  String.mk (((s.data.dropWhile fun c => cs.contains c).reverse.dropWhile
    fun c => cs.contains c).reverse)

/-- `Task._safe_convert_value`: coerce an entered string to the type of the
current parameter value.  Booleans go through a truthy-token set, ints
through `int(...)` (a parse failure is the ValueError the caller catches),
lists through a strip-brackets-and-split-on-comma, strings pass through;
any other target type raises the unsupported-type ValueError (`none`
here). -/
def safeConvertValue (value : String) (expectedType : PyType) : Option PyVal :=
  match expectedType with
  | .bool =>
      some (.bool (pyLower value = "true" || pyLower value = "1" ||
        pyLower value = "yes"))
  | .int => (pyParseInt value).map PyVal.int
  | .list =>
      some (.list ((pySplit (stripChars value ['[', ']']) ',').map
        fun item => PyVal.str (pyTrim item)))
  | .str => some (.str value)
  | .dict => Option.none
  | .noneType => Option.none

/-- One entry of `TaskContext.param_sources`: the resolved value of a
parameter and the tier it came from. -/
structure ParamInfo : Type where
  value : PyVal
  source : ConfigSource

/-- Processing of one entered `key=value` line of
`Task._get_updated_parameters`: a line that does not split into exactly
two parts, names a parameter never resolved into `param_sources`, or fails
type conversion is reported and leaves the accumulated map unchanged;
otherwise the converted value is written under the stripped key. -/
def applyOverrideLine (sources : Dict ParamInfo) (line : String)
    (acc : Dict PyVal) : Dict PyVal :=
  match pySplit line '=' with
  | [key, value] =>
      let key := pyTrim key
      match dfind key sources with
      | some info =>
          match safeConvertValue (pyTrim value) (pyType info.value) with
          | some v => dinsert key v acc
          | Option.none => acc
      | Option.none => acc
  | _ => acc

/-- The prompt loop of `Task._get_updated_parameters`, carrying the
accumulated `updated_params` map: consume entered lines until a blank
line, applying each override. -/
def updatedParamsLoop (sources : Dict ParamInfo) :
    List String → Dict PyVal → Dict PyVal
  | [], acc => acc
  | line :: rest, acc =>
      if line = "" then acc
      else updatedParamsLoop sources rest (applyOverrideLine sources line acc)

/-- `Task._get_updated_parameters`: run the prompt loop starting from a
copy of the task's workflow parameter map. -/
def getUpdatedParameters (params : Dict PyVal) (sources : Dict ParamInfo)
    (lines : List String) : Dict PyVal :=
  updatedParamsLoop sources lines params

/-- `Task._update_task_parameters`: write each new parameter into the
task's workflow parameter map with WORKFLOW source tracking, raising
ValueError for a name absent from `param_sources` and TypeError for a
value that is not an instance of the current value's type.  The state
mutated before the raise is kept, as in python. -/
def updateTaskParameters (newParams : Dict PyVal) (params : Dict PyVal)
    (sources : Dict ParamInfo) :
    Except String Unit × Dict PyVal × Dict ParamInfo :=
  match newParams with
  | [] => (Except.ok (), params, sources)
  | (name, value) :: rest =>
      match dfind name sources with
      | Option.none => (Except.error ("Unknown parameter: " ++ name), params, sources)
      | some info =>
          if pyIsinstance value (pyType info.value) then
            updateTaskParameters rest (dinsert name value params)
              (dinsert name ⟨value, ConfigSource.WORKFLOW⟩ sources)
          else
            (Except.error ("Parameter " ++ name ++ " must be of type " ++
              pyTypeName (pyType info.value)), params, sources)

/-- One entered answer to the `Select option (1-3)` prompt: approve (1),
re-run with the override lines subsequently entered (2), reject (3), or
any other integer (re-prompted). -/
inductive ReviewChoice : Type where
  | approve
  | rerunWith (lines : List String)
  | reject
  | other (n : Int)

/-- `Task.get_user_review`: loop on the options prompt until a valid
choice; approve returns `"accepted"`, reject returns `"rejected"`, and
re-run collects parameter overrides and applies them, returning `"re-run"`
on success and `"rejected"` when applying them raises ValueError or
TypeError.  Returns the review string together with the task's workflow
parameter map and `param_sources` after the call (`none` when the choice
stream is exhausted, i.e. the operator never answered with 1-3). -/
def getUserReview (params : Dict PyVal) (sources : Dict ParamInfo) :
    List ReviewChoice → Option (String × Dict PyVal × Dict ParamInfo)
  | [] => Option.none
  | .approve :: _ => some ("accepted", params, sources)
  | .reject :: _ => some ("rejected", params, sources)
  | .other _ :: rest => getUserReview params sources rest
  | .rerunWith lines :: _ =>
      let updatedParams := getUpdatedParameters params sources lines
      match updateTaskParameters updatedParams params sources with
      | (Except.ok _, p', s') => some ("re-run", p', s')
      | (Except.error _, p', s') => some ("rejected", p', s')

/-! ## Workflow execution engine (workflow/workflow_handler.py) -/

/-- TaskConfig dataclass (model/task/config.py). -/
structure TaskConfig : Type where
  name : String
  task_type : String
  depends_on : List String
  params : Dict PyVal := []
  llm_config : Option (Dict PyVal) := Option.none
  human_review : Bool := false
  max_retries : Nat := 0

/-- TaskResult dataclass (model/task/result.py).  The wall-clock
`created_at` timestamp is not modelled. -/
structure TaskResult : Type where
  task_name : String
  success : Bool
  data : Option PyVal := Option.none
  error : Option String := Option.none
  warning : Option String := Option.none
  metrics : Option (Dict PyVal) := Option.none

/-- Python f-string rendering of an `Optional[str]` (None prints as
`"None"`). -/
def optionStr : Option String → String
  | some s => s
  | Option.none => "None"

/-- The failure TaskResult built by `_execute_task`'s blanket exception
handler: `success=False` with the raw exception text. -/
def exceptionResult (taskName : String) (e : String) : TaskResult :=
  { task_name := taskName, success := false, error := some e }

/-- The mutable per-task-instance state the review protocol works on:
`context.params` and `context.param_sources`. -/
structure TaskState : Type where
  params : Dict PyVal
  sources : Dict ParamInfo

/-- The human-review while-loop of `_execute_task`: while the config asks
for review and the current result succeeded, run `get_user_review`;
`"rejected"` overwrites the result with the fixed rejection error,
`"re-run"` re-invokes `execute()` with the updated parameters (an
exception there is caught by the surrounding handler), any other review
string breaks out keeping the result.  `rounds` supplies the operator's
choices for each successive `get_user_review` call; `none` means the run
is still blocked waiting for operator input. -/
def runReviewLoop (humanReview : Bool) (taskName : String)
    (execFn : Dict PyVal → Except String TaskResult) :
    List (List ReviewChoice) → TaskState → TaskResult → Option TaskResult
  | rounds, st, result =>
    if humanReview && result.success then
      match rounds with
      | [] => Option.none
      | round :: rest =>
          match getUserReview st.params st.sources round with
          | Option.none => Option.none
          | some (reviewResult, p', s') =>
              if reviewResult = "rejected" then
                some { result with success := false,
                                   error := some "Rejected by human review" }
              else if reviewResult = "re-run" then
                match execFn p' with
                | Except.ok result' => runReviewLoop humanReview taskName execFn rest ⟨p', s'⟩ result'
                | Except.error e => some (exceptionResult taskName e)
              else some result
    else some result

/-- `WorkflowHandler._execute_task`: instantiate the task (an unknown task
type raises), run `execute()` (an uncaught exception is converted to a
failure TaskResult by the blanket handler), then run the human-review
loop.  `instantiate` is the outcome of `_get_task_instance`, and `execFn`
gives the outcome of `task.execute()` as a function of the task's workflow
parameter map. -/
def executeTask (tc : TaskConfig) (initSt : TaskState)
    (instantiate : Except String Unit)
    (execFn : Dict PyVal → Except String TaskResult)
    (rounds : List (List ReviewChoice)) : Option TaskResult :=
  match instantiate with
  | Except.error e => some (exceptionResult tc.name e)
  | Except.ok _ =>
      match execFn initSt.params with
      | Except.error e => some (exceptionResult tc.name e)
      | Except.ok result => runReviewLoop tc.human_review tc.name execFn rounds initSt result

/-- The dependency check of `execute_workflow`: for each declared
dependency, report it as `"(not executed)"` when it has no entry in the
results map and as `"(failed: <error>)"` when its recorded result did not
succeed. -/
def failedDepsOf (tc : TaskConfig) (results : Dict TaskResult) : List String :=
  tc.depends_on.filterMap fun dep =>
    match dfind dep results with
    | Option.none => some (dep ++ " (not executed)")
    | some r =>
        if r.success then Option.none
        else some (dep ++ " (failed: " ++ optionStr r.error ++ ")")

/-- The failure TaskResult recorded for a task whose dependency check
failed. -/
def depFailureResult (tc : TaskConfig) (failedDeps : List String) : TaskResult :=
  { task_name := tc.name
    success := false
    error := some ("Dependencies failed for " ++ tc.name ++ ": " ++ pyJoin ", " failedDeps)
    data := some (.dict [("failed_dependencies", .list (failedDeps.map PyVal.str))])
    metrics := some [("dependency_failures", .int failedDeps.length)] }

/-- The failure TaskResult `_mark_remaining_tasks_as_failed` records for a
skipped task. -/
def skippedResult (taskName : String) (errorMessage : String) : TaskResult :=
  { task_name := taskName
    success := false
    error := some errorMessage
    metrics := some [("skipped_due_to_workflow_failure", .bool true)] }

/-- `WorkflowHandler._mark_remaining_tasks_as_failed`. -/
def markRemainingTasksAsFailed (remainingConfigs : List TaskConfig)
    (results : Dict TaskResult) (errorMessage : String) : Dict TaskResult :=
  remainingConfigs.foldl
    (fun res rc => dinsert rc.name (skippedResult rc.name errorMessage) res) results

/-- `context[task_config.name] = result.data or {}`. -/
def pyOrData (data : Option PyVal) : PyVal :=
  match data with
  | some v => if v.isTruthy then v else .dict []
  | Option.none => .dict []

/-- The task loop of `WorkflowHandler.execute_workflow`, over the declared
task list: check dependencies (a failure records a dependency-failure
result, marks every remaining task failed and stops), execute the task
(abstracted by `exec`, since `_execute_task` never raises), record its
result, stop on failure marking the remaining tasks failed, and on success
merge `result.data or {}` into the running context. -/
def executeWorkflowLoop (exec : TaskConfig → Dict PyVal → TaskResult) :
    List TaskConfig → Dict PyVal → Dict TaskResult → Dict TaskResult
  | [], _, results => results
  | tc :: rest, ctx, results =>
      let failedDeps := failedDepsOf tc results
      if failedDeps.isEmpty then
        let result := exec tc ctx
        let results' := dinsert tc.name result results
        if result.success then
          executeWorkflowLoop exec rest (dinsert tc.name (pyOrData result.data) ctx) results'
        else
          markRemainingTasksAsFailed rest results' ("Skipped due to failure of " ++ tc.name)
      else
        markRemainingTasksAsFailed rest
          (dinsert tc.name (depFailureResult tc failedDeps) results)
          "Skipped due to workflow failure: dependency chain broken"

/-- `WorkflowHandler.execute_workflow`: an unknown workflow name raises
ValueError before any task runs; otherwise the task list is executed with
an empty context and empty results map and the results map is returned.
The registry stores the task lists already in `TaskConfig` form
(`_create_task_config` is a total per-field extraction with defaults). -/
def executeWorkflow (workflows : Dict (List TaskConfig))
    (exec : TaskConfig → Dict PyVal → TaskResult) (workflowName : String) :
    Except String (Dict TaskResult) :=
  match dfind workflowName workflows with
  | Option.none => Except.error ("Unknown workflow: " ++ workflowName)
  | some tasks => Except.ok (executeWorkflowLoop exec tasks [] [])

/-- A run prefix in which every task's dependency check passes and every
execution succeeds: returns the context and results map reached after the
given tasks, `none` when some task on the way fails (so the state is never
reached with all earlier tasks succeeding). -/
def runSucceedingTasks (exec : TaskConfig → Dict PyVal → TaskResult) :
    List TaskConfig → Dict PyVal → Dict TaskResult → Option (Dict PyVal × Dict TaskResult)
  | [], ctx, results => some (ctx, results)
  | tc :: rest, ctx, results =>
      if (failedDepsOf tc results).isEmpty then
        let result := exec tc ctx
        if result.success then
          runSucceedingTasks exec rest (dinsert tc.name (pyOrData result.data) ctx)
            (dinsert tc.name result results)
        else Option.none
      else Option.none

/-! ## Concurrent sub-operation collector (utils/async_progress.py) -/

/-- What the await-and-catch of one sub-operation stores into its result
slot: the awaited value, or `None` when the task raised. -/
def collectOutcome {α : Type} : Except String α → Option α
  | Except.ok v => some v
  | Except.error _ => Option.none

/-- `track_async_progress`: preallocate a `None` slot per task, then await
each task in input order, writing its value at its input index and
converting an exception into `None` there.  The argument list holds the
eventual outcome of each coroutine. -/
def trackAsyncProgress {α : Type} (tasks : List (Except String α)) : List (Option α) :=
  tasks.enum.foldl
    (fun results it => results.set it.1 (collectOutcome it.2))
    (List.replicate tasks.length Option.none)

/-- Substring containment, for "error text includes ..." properties. -/
def substrOf (needle hay : String) : Prop :=
  ∃ p q, hay.data = p ++ needle.data ++ q

/-! ## Concrete fixtures used by the witnesses and counterexamples -/

/-- A workflow-opening task with no dependencies. -/
def taskA : TaskConfig := { name := "A", task_type := "CollectFeedsTask", depends_on := [] }

/-- A task depending on `taskA`. -/
def taskB : TaskConfig := { name := "B", task_type := "FetchArticlesTask", depends_on := ["A"] }

/-- A task depending on `taskB`. -/
def taskC : TaskConfig := { name := "C", task_type := "ClusterFeedsTask", depends_on := ["B"] }

/-- A task whose declared dependency `Z` is never declared in the list. -/
def taskU : TaskConfig := { name := "U", task_type := "SummarizeTask", depends_on := ["Z"] }

/-- A successful result for the named task. -/
def succeedingResult (n : String) : TaskResult := { task_name := n, success := true }

/-- A failing result for the named task. -/
def failingResult (n : String) : TaskResult :=
  { task_name := n, success := false, error := some "boom" }

/-- A task-dispatch oracle under which task `B` fails and every other task
succeeds. -/
def sampleExec : TaskConfig → Dict PyVal → TaskResult := fun tc _ =>
  if tc.name = "B" then failingResult "B" else succeedingResult tc.name

/-- A configuration state with one base-settings entry, one scoped
base-settings block and nothing else. -/
def sampleConfigState : ConfigState :=
  { typerParams := Option.none
    environ := []
    env_settings := []
    base_settings := [("k", .str "base"), ("t", .dict [("k", .str "scoped")])] }

/-- A workflow parameter map holding both a scoped block for task `sc` and
a plain entry for key `k`. -/
def sampleWorkflowParams : Dict PyVal :=
  [("sc", .dict [("k", .str "scoped")]), ("k", .str "plain")]

/-- A workflow parameter map holding only a scoped block for task `t` and
no plain entry for key `k`. -/
def scopedOnlyParams : Dict PyVal := [("t", .dict [("k", .str "wfscoped")])]

/-- A parameter map with one tracked integer parameter. -/
def sampleParams : Dict PyVal := [("a", .int 1)]

/-- Source tracking matching `sampleParams`. -/
def sampleSources : Dict ParamInfo := [("a", ⟨.int 1, ConfigSource.WORKFLOW⟩)]

/-! ## Dictionary lemmas -/

theorem dfind_dinsert_self {V : Type} (k : String) (v : V) (d : Dict V) :
    dfind k (dinsert k v d) = some v := by
  induction d with
  | nil => simp [dinsert, dfind]
  | cons hd tl ih =>
      obtain ⟨k', v'⟩ := hd
      by_cases h : k' = k
      · simp [dinsert, h, dfind]
      · simp [dinsert, h, dfind, ih]

theorem dfind_dinsert_ne {V : Type} (k k' : String) (v : V) (d : Dict V)
    (h : k ≠ k') : dfind k' (dinsert k v d) = dfind k' d := by
  induction d with
  | nil => simp [dinsert, dfind, h]
  | cons hd tl ih =>
      obtain ⟨k₀, v₀⟩ := hd
      by_cases h₀ : k₀ = k
      · subst h₀
        simp [dinsert, dfind, h]
      · simp [dinsert, h₀, dfind, ih]

theorem length_dinsert_of_dfind_none {V : Type} (k : String) (v : V) (d : Dict V)
    (h : dfind k d = Option.none) : (dinsert k v d).length = d.length + 1 := by
  induction d with
  | nil => simp [dinsert]
  | cons hd tl ih =>
      obtain ⟨k₀, v₀⟩ := hd
      by_cases h₀ : k₀ = k
      · simp [dfind, h₀] at h
      · simp only [dfind, h₀, if_false] at h
        simp [dinsert, h₀, ih h]

theorem dinsert_eq_of_dfind_eq {V : Type} (k : String) (v : V) (d : Dict V)
    (h : dfind k d = some v) : dinsert k v d = d := by
  induction d with
  | nil => simp [dfind] at h
  | cons hd tl ih =>
      obtain ⟨k₀, v₀⟩ := hd
      by_cases h₀ : k₀ = k
      · subst h₀
        have h' : v₀ = v := by simpa [dfind] using h
        subst h'
        simp [dinsert]
      · simp only [dfind, h₀, if_false] at h
        simp [dinsert, h₀, ih h]

theorem dfind_eq_of_mem_nodup {V : Type} (d : Dict V) (k : String) (v : V)
    (hn : (dkeys d).Nodup) (hm : (k, v) ∈ d) : dfind k d = some v := by
  induction d with
  | nil => cases hm
  | cons hd tl ih =>
      obtain ⟨k₀, v₀⟩ := hd
      simp only [dkeys, List.map_cons, List.nodup_cons] at hn
      rcases List.mem_cons.mp hm with he | htl
      · obtain ⟨hk, hv⟩ := Prod.mk.injEq .. ▸ he
        simp [dfind, hk.symm, hv]
      · have hk : k₀ ≠ k := by
          intro he'
          exact hn.1 (he' ▸ (List.mem_map.mpr ⟨(k, v), htl, rfl⟩))
        simp [dfind, hk, ih hn.2 htl]

/-! ## Lemmas about dot-notation lookup on empty settings -/

theorem pySplitAux_ne_nil (sep : Char) (cs : List Char) (acc : String) :
    pySplitAux sep cs acc ≠ [] := by
  induction cs generalizing acc with
  | nil => simp [pySplitAux]
  | cons c rest ih =>
      by_cases h : c = sep
      · simp [pySplitAux, h]
      · simp only [pySplitAux, h, if_false]
        exact ih _

theorem getFromDict_nil (path : String) : getFromDict [] path = PyVal.noneV := by
  unfold getFromDict splitDot pySplit
  cases h : pySplitAux '.' path.data "" with
  | nil => exact absurd h (pySplitAux_ne_nil _ _ _)
  | cons a l => rfl

theorem tryGetParam_nil (key : String) (scope : Option String) :
    tryGetParam [] key scope = PyVal.noneV := by
  unfold tryGetParam
  cases scope with
  | none => exact getFromDict_nil key
  | some s =>
      by_cases hs : s = ""
      · simp [hs, getFromDict_nil]
      · simp [hs, getFromDict_nil, PyVal.isNone]

/-! ## Lemmas about marking remaining tasks as failed -/

theorem dfind_markRemaining_not_mem (remaining : List TaskConfig)
    (res : Dict TaskResult) (msg : String) (k : String)
    (h : k ∉ remaining.map TaskConfig.name) :
    dfind k (markRemainingTasksAsFailed remaining res msg) = dfind k res := by
  induction remaining generalizing res with
  | nil => rfl
  | cons tc rest ih =>
      simp only [List.map_cons, List.mem_cons, not_or] at h
      simp only [markRemainingTasksAsFailed, List.foldl_cons]
      rw [show (List.foldl _ _ rest : Dict TaskResult) =
        markRemainingTasksAsFailed rest (dinsert tc.name (skippedResult tc.name msg) res) msg
        from rfl]
      rw [ih _ h.2]
      exact dfind_dinsert_ne _ _ _ _ fun he => h.1 he.symm

theorem dfind_markRemaining_mem (remaining : List TaskConfig)
    (res : Dict TaskResult) (msg : String) (tc : TaskConfig)
    (hn : (remaining.map TaskConfig.name).Nodup) (hm : tc ∈ remaining) :
    dfind tc.name (markRemainingTasksAsFailed remaining res msg)
      = some (skippedResult tc.name msg) := by
  induction remaining generalizing res with
  | nil => cases hm
  | cons hd rest ih =>
      simp only [List.map_cons, List.nodup_cons] at hn
      simp only [markRemainingTasksAsFailed, List.foldl_cons]
      rw [show (List.foldl _ _ rest : Dict TaskResult) =
        markRemainingTasksAsFailed rest (dinsert hd.name (skippedResult hd.name msg) res) msg
        from rfl]
      rcases List.mem_cons.mp hm with he | htl
      · subst he
        rw [dfind_markRemaining_not_mem _ _ _ _ hn.1]
        exact dfind_dinsert_self _ _ _
      · exact ih _ hn.2 htl

theorem length_markRemaining (remaining : List TaskConfig)
    (res : Dict TaskResult) (msg : String)
    (hn : (remaining.map TaskConfig.name).Nodup)
    (hf : ∀ tc ∈ remaining, dfind tc.name res = Option.none) :
    (markRemainingTasksAsFailed remaining res msg).length
      = res.length + remaining.length := by
  induction remaining generalizing res with
  | nil => rfl
  | cons hd rest ih =>
      simp only [List.map_cons, List.nodup_cons] at hn
      simp only [markRemainingTasksAsFailed, List.foldl_cons]
      rw [show (List.foldl _ _ rest : Dict TaskResult) =
        markRemainingTasksAsFailed rest (dinsert hd.name (skippedResult hd.name msg) res) msg
        from rfl]
      have hf' : ∀ tc ∈ rest,
          dfind tc.name (dinsert hd.name (skippedResult hd.name msg) res) = Option.none := by
        intro tc htc
        rw [dfind_dinsert_ne]
        · exact hf tc (List.mem_cons_of_mem hd htc)
        · intro he
          exact hn.1 (he ▸ List.mem_map.mpr ⟨tc, htc, rfl⟩)
      rw [ih _ hn.2 hf',
        length_dinsert_of_dfind_none _ _ _ (hf hd (List.mem_cons_self hd rest))]
      simp only [List.length_cons]
      omega

/-! ## Lemmas about runs whose every task succeeds -/

theorem executeWorkflowLoop_of_runSucceeding
    (exec : TaskConfig → Dict PyVal → TaskResult) (pre rest : List TaskConfig)
    (ctx : Dict PyVal) (res : Dict TaskResult) (ctx' : Dict PyVal)
    (res' : Dict TaskResult)
    (h : runSucceedingTasks exec pre ctx res = some (ctx', res')) :
    executeWorkflowLoop exec (pre ++ rest) ctx res
      = executeWorkflowLoop exec rest ctx' res' := by
  induction pre generalizing ctx res with
  | nil =>
      simp only [runSucceedingTasks, Option.some.injEq, Prod.mk.injEq] at h
      rw [List.nil_append, h.1, h.2]
  | cons tc tl ih =>
      rw [List.cons_append]
      simp only [runSucceedingTasks] at h
      by_cases hdeps : (failedDepsOf tc res).isEmpty = true
      · simp only [hdeps, if_true] at h
        by_cases hs : (exec tc ctx).success = true
        · simp only [hs, if_true] at h
          simp only [executeWorkflowLoop, hdeps, if_true, hs]
          exact ih _ _ h
        · simp [hs] at h
      · simp [hdeps] at h

theorem runSucceeding_dfind_none
    (exec : TaskConfig → Dict PyVal → TaskResult) (pre : List TaskConfig)
    (ctx : Dict PyVal) (res : Dict TaskResult) (ctx' : Dict PyVal)
    (res' : Dict TaskResult) (k : String)
    (h : runSucceedingTasks exec pre ctx res = some (ctx', res'))
    (hk : dfind k res = Option.none) (hnm : k ∉ pre.map TaskConfig.name) :
    dfind k res' = Option.none := by
  induction pre generalizing ctx res with
  | nil =>
      simp only [runSucceedingTasks, Option.some.injEq, Prod.mk.injEq] at h
      rw [← h.2]
      exact hk
  | cons tc tl ih =>
      simp only [List.map_cons, List.mem_cons, not_or] at hnm
      simp only [runSucceedingTasks] at h
      by_cases hdeps : (failedDepsOf tc res).isEmpty = true
      · simp only [hdeps, if_true] at h
        by_cases hs : (exec tc ctx).success = true
        · simp only [hs, if_true] at h
          refine ih _ _ h ?_ hnm.2
          rw [dfind_dinsert_ne _ _ _ _ fun he => hnm.1 he.symm]
          exact hk
        · simp [hs] at h
      · simp [hdeps] at h

theorem runSucceeding_length
    (exec : TaskConfig → Dict PyVal → TaskResult) (pre : List TaskConfig)
    (ctx : Dict PyVal) (res : Dict TaskResult) (ctx' : Dict PyVal)
    (res' : Dict TaskResult)
    (h : runSucceedingTasks exec pre ctx res = some (ctx', res'))
    (hn : (pre.map TaskConfig.name).Nodup)
    (hf : ∀ tc ∈ pre, dfind tc.name res = Option.none) :
    res'.length = res.length + pre.length := by
  induction pre generalizing ctx res with
  | nil =>
      simp only [runSucceedingTasks, Option.some.injEq, Prod.mk.injEq] at h
      rw [← h.2]
      simp
  | cons tc tl ih =>
      simp only [List.map_cons, List.nodup_cons] at hn
      simp only [runSucceedingTasks] at h
      by_cases hdeps : (failedDepsOf tc res).isEmpty = true
      · simp only [hdeps, if_true] at h
        by_cases hs : (exec tc ctx).success = true
        · simp only [hs, if_true] at h
          have hf' : ∀ tc' ∈ tl,
              dfind tc'.name (dinsert tc.name (exec tc ctx) res) = Option.none := by
            intro tc' htc
            rw [dfind_dinsert_ne]
            · exact hf tc' (List.mem_cons_of_mem tc htc)
            · intro he
              exact hn.1 (he ▸ List.mem_map.mpr ⟨tc', htc, rfl⟩)
          rw [ih _ _ h hn.2 hf',
            length_dinsert_of_dfind_none _ _ _ (hf tc (List.mem_cons_self tc tl))]
          simp only [List.length_cons]
          omega
        · simp [hs] at h
      · simp [hdeps] at h

/-! ## Lemmas about the dependency check -/

theorem mem_failedDeps_not_executed (tc : TaskConfig) (results : Dict TaskResult)
    (dep : String) (hd : dep ∈ tc.depends_on)
    (hm : dfind dep results = Option.none) :
    (dep ++ " (not executed)") ∈ failedDepsOf tc results := by
  unfold failedDepsOf
  exact List.mem_filterMap.mpr ⟨dep, hd, by simp [hm]⟩

theorem mem_failedDeps_failed (tc : TaskConfig) (results : Dict TaskResult)
    (dep : String) (r : TaskResult) (hd : dep ∈ tc.depends_on)
    (hm : dfind dep results = some r) (hs : r.success = false) :
    (dep ++ " (failed: " ++ optionStr r.error ++ ")") ∈ failedDepsOf tc results := by
  unfold failedDepsOf
  exact List.mem_filterMap.mpr ⟨dep, hd, by simp [hm, hs]⟩

theorem failedDeps_isEmpty_false (tc : TaskConfig) (results : Dict TaskResult)
    (s : String) (h : s ∈ failedDepsOf tc results) :
    (failedDepsOf tc results).isEmpty = false := by
  cases hfd : failedDepsOf tc results with
  | nil => rw [hfd] at h; cases h
  | cons a l => rfl

/-! ## String-joining lemmas -/

theorem substrOf_pyJoin (sep : String) (l : List String) (s : String)
    (h : s ∈ l) : substrOf s (pyJoin sep l) := by
  induction l with
  | nil => cases h
  | cons a tl ih =>
      cases tl with
      | nil =>
          rcases List.mem_singleton.mp h with rfl
          exact ⟨[], [], by simp [pyJoin]⟩
      | cons b tl2 =>
          rcases List.mem_cons.mp h with rfl | htl
          · refine ⟨[], (sep ++ pyJoin sep (b :: tl2)).data, ?_⟩
            rw [show pyJoin sep (s :: b :: tl2) = s ++ sep ++ pyJoin sep (b :: tl2)
              from rfl]
            simp [String.data_append]
          · obtain ⟨p, q, hpq⟩ := ih htl
            refine ⟨(a ++ sep).data ++ p, q, ?_⟩
            rw [show pyJoin sep (a :: b :: tl2) = a ++ sep ++ pyJoin sep (b :: tl2)
              from rfl]
            simp [String.data_append, hpq]

/-! ## Review-protocol lemmas -/

theorem pyIsinstance_self (v : PyVal) : pyIsinstance v (pyType v) = true := by
  cases v <;> rfl

theorem dfind_some_of_mem {V : Type} (d : Dict V) (k : String) (v : V)
    (hm : (k, v) ∈ d) : ∃ v', dfind k d = some v' := by
  induction d with
  | nil => cases hm
  | cons hd tl ih =>
      obtain ⟨k₀, v₀⟩ := hd
      by_cases h : k₀ = k
      · exact ⟨v₀, by simp [dfind, h]⟩
      · rcases List.mem_cons.mp hm with he | htl
        · obtain ⟨hk, _⟩ := Prod.mk.injEq .. ▸ he
          exact absurd hk.symm h
        · simpa [dfind, h] using ih htl

theorem mem_of_dfind_eq_some {V : Type} (d : Dict V) (k : String) (v : V)
    (h : dfind k d = some v) : (k, v) ∈ d := by
  induction d with
  | nil => cases h
  | cons hd tl ih =>
      obtain ⟨k₀, v₀⟩ := hd
      by_cases h₀ : k₀ = k
      · subst h₀
        have hv : v₀ = v := by simpa [dfind] using h
        subst hv
        exact List.mem_cons_self _ _
      · simp only [dfind, h₀, if_false] at h
        exact List.mem_cons_of_mem _ (ih h)

theorem dfind_applyOverrideLine_of_untracked (sources : Dict ParamInfo)
    (line : String) (acc : Dict PyVal) (k : String)
    (hk : dfind k sources = Option.none) :
    dfind k (applyOverrideLine sources line acc) = dfind k acc := by
  unfold applyOverrideLine
  split
  · rename_i key value hsp
    cases hds : dfind (pyTrim key) sources with
    | none => simp [hds]
    | some info =>
        simp only [hds]
        cases hcv : safeConvertValue (pyTrim value) (pyType info.value) with
        | none => simp [hcv]
        | some v =>
            simp only [hcv]
            refine dfind_dinsert_ne _ _ _ _ fun he => ?_
            rw [he, hk] at hds
            cases hds
  · rfl

theorem dfind_updatedParamsLoop_of_untracked (sources : Dict ParamInfo)
    (lines : List String) (k : String) (acc : Dict PyVal)
    (hk : dfind k sources = Option.none) :
    dfind k (updatedParamsLoop sources lines acc) = dfind k acc := by
  induction lines generalizing acc with
  | nil => rfl
  | cons line rest ih =>
      simp only [updatedParamsLoop]
      by_cases hb : line = ""
      · simp [hb]
      · simp only [hb, if_false]
        rw [ih _, dfind_applyOverrideLine_of_untracked sources line acc k hk]

theorem updateTaskParameters_error_of_untracked (newParams : Dict PyVal)
    (params : Dict PyVal) (sources : Dict ParamInfo) (k : String) (v : PyVal)
    (hm : (k, v) ∈ newParams) (hk : dfind k sources = Option.none) :
    ∃ e p' s', updateTaskParameters newParams params sources
      = (Except.error e, p', s') := by
  induction newParams generalizing params sources with
  | nil => cases hm
  | cons hd rest ih =>
      obtain ⟨k₀, v₀⟩ := hd
      simp only [updateTaskParameters]
      cases hds : dfind k₀ sources with
      | none => exact ⟨_, _, _, rfl⟩
      | some info =>
          have hne : k₀ ≠ k := fun he => by rw [he, hk] at hds; cases hds
          have hm' : (k, v) ∈ rest := by
            rcases List.mem_cons.mp hm with he | h'
            · obtain ⟨hk', _⟩ := Prod.mk.injEq .. ▸ he
              exact absurd hk'.symm hne
            · exact h'
          by_cases hinst : pyIsinstance v₀ (pyType info.value) = true
          · simp only [hinst, if_true]
            refine ih _ _ hm' ?_
            rw [dfind_dinsert_ne _ _ _ _ hne]
            exact hk
          · simp only [hinst, if_false]
            exact ⟨_, _, _, rfl⟩

theorem updateTaskParameters_ok_of_tracked (l : Dict PyVal) (params : Dict PyVal)
    (sources : Dict ParamInfo)
    (h : ∀ k v, (k, v) ∈ l → dfind k params = some v ∧
        ∃ info, dfind k sources = some info ∧ pyIsinstance v (pyType info.value) = true) :
    ∃ s', updateTaskParameters l params sources = (Except.ok (), params, s') := by
  induction l generalizing params sources with
  | nil => exact ⟨sources, rfl⟩
  | cons hd rest ih =>
      obtain ⟨k₀, v₀⟩ := hd
      obtain ⟨hp₀, info, hs₀, hi₀⟩ := h k₀ v₀ (List.mem_cons_self _ _)
      simp only [updateTaskParameters, hs₀, hi₀, if_true]
      rw [dinsert_eq_of_dfind_eq _ _ _ hp₀]
      refine ih _ _ ?_
      intro k v hm
      obtain ⟨hp, info', hs', hi'⟩ := h k v (List.mem_cons_of_mem _ hm)
      refine ⟨hp, ?_⟩
      by_cases he : k₀ = k
      · subst he
        have hv : v = v₀ := by
          rw [hp₀] at hp
          exact (Option.some.injEq .. ▸ hp).symm
        subst hv
        exact ⟨⟨v, ConfigSource.WORKFLOW⟩, dfind_dinsert_self _ _ _,
          pyIsinstance_self v⟩
      · refine ⟨info', ?_, hi'⟩
        rw [dfind_dinsert_ne _ _ _ _ he]
        exact hs'

/-! ## Indexed-write collection lemma -/

theorem foldl_set_enumFrom {α β : Type} (f : α → β) (l : List α) (n : Nat)
    (rs : List β) (hlen : rs.length = n + l.length) :
    (List.enumFrom n l).foldl (fun acc it => acc.set it.1 (f it.2)) rs
      = rs.take n ++ l.map f := by
  induction l generalizing n rs with
  | nil =>
      simp only [List.length_nil, Nat.add_zero] at hlen
      simp only [List.enumFrom, List.foldl_nil, List.map_nil, List.append_nil]
      exact (List.take_of_length_le (le_of_eq hlen)).symm
  | cons a tl ih =>
      simp only [List.enumFrom, List.foldl_cons, List.map_cons]
      rw [ih (n + 1) (rs.set n (f a)) (by simp only [List.length_set]; simp at hlen; omega)]
      have hn : n < rs.length := by simp at hlen; omega
      have hlt : (rs.take n).length = n := by
        rw [List.length_take]
        omega
      rw [List.set_eq_take_cons_drop (f a) hn, List.take_append_eq_append_take,
        List.take_of_length_le (by rw [hlt]; omega), hlt,
        show n + 1 - n = 1 from by omega]
      simp

/-! ## Claim theorems -/

/-- C1: in every workflow execution that reaches a task `t` with all
earlier tasks succeeding, if `t`'s execution returns `success=False` then
`execute_workflow` returns (without raising) a map that records `t`'s own
failure result under its name, records for every later declared task a
failure result whose error is the fixed skip message referencing `t`'s
name, executes no further task (the returned map is literally the
mark-remaining fold, which never consults the dispatch oracle), and has
one entry per declared task. -/
theorem execute_workflow_task_failure_propagation
    (exec : TaskConfig → Dict PyVal → TaskResult)
    (workflows : Dict (List TaskConfig)) (workflowName : String)
    (pre : List TaskConfig) (t : TaskConfig) (post : List TaskConfig)
    (ctx : Dict PyVal) (results : Dict TaskResult)
    (hwf : dfind workflowName workflows = some (pre ++ t :: post))
    (hnodup : ((pre ++ t :: post).map TaskConfig.name).Nodup)
    (hpre : runSucceedingTasks exec pre [] [] = some (ctx, results))
    (hdeps : (failedDepsOf t results).isEmpty = true)
    (hfail : (exec t ctx).success = false) :
    ∃ out, executeWorkflow workflows exec workflowName = Except.ok out ∧
      out = markRemainingTasksAsFailed post (dinsert t.name (exec t ctx) results)
        ("Skipped due to failure of " ++ t.name) ∧
      dfind t.name out = some (exec t ctx) ∧
      (∀ c ∈ post, dfind c.name out
          = some (skippedResult c.name ("Skipped due to failure of " ++ t.name))) ∧
      out.length = pre.length + 1 + post.length := by
  rw [List.map_append, List.map_cons] at hnodup
  obtain ⟨hn_pre, hn_rest, hdisj⟩ := List.nodup_append.mp hnodup
  obtain ⟨htn_post, hn_post⟩ := List.nodup_cons.mp hn_rest
  have htn_pre : t.name ∉ pre.map TaskConfig.name := fun hm =>
    hdisj hm (List.mem_cons_self _ _)
  have hcfresh : ∀ c ∈ post, c.name ∉ pre.map TaskConfig.name := fun c hc hm =>
    hdisj hm (List.mem_cons_of_mem _ (List.mem_map.mpr ⟨c, hc, rfl⟩))
  have hcne : ∀ c ∈ post, c.name ≠ t.name := fun c hc he =>
    htn_post (he ▸ List.mem_map.mpr ⟨c, hc, rfl⟩)
  have ht_res : dfind t.name results = Option.none :=
    runSucceeding_dfind_none exec pre [] [] ctx results t.name hpre rfl htn_pre
  have hc_res : ∀ c ∈ post,
      dfind c.name (dinsert t.name (exec t ctx) results) = Option.none := by
    intro c hc
    rw [dfind_dinsert_ne _ _ _ _ fun he => hcne c hc he.symm]
    exact runSucceeding_dfind_none exec pre [] [] ctx results c.name hpre rfl
      (hcfresh c hc)
  have hstep : executeWorkflowLoop exec (t :: post) ctx results
      = markRemainingTasksAsFailed post (dinsert t.name (exec t ctx) results)
          ("Skipped due to failure of " ++ t.name) := by
    simp [executeWorkflowLoop, hdeps, hfail]
  refine ⟨_, ?_, rfl, ?_, ?_, ?_⟩
  · simp only [executeWorkflow, hwf]
    rw [executeWorkflowLoop_of_runSucceeding exec pre (t :: post) [] [] ctx results hpre,
      hstep]
  · rw [dfind_markRemaining_not_mem _ _ _ _ htn_post]
    exact dfind_dinsert_self _ _ _
  · intro c hc
    exact dfind_markRemaining_mem _ _ _ _ hn_post hc
  · rw [length_markRemaining _ _ _ hn_post hc_res,
      length_dinsert_of_dfind_none _ _ _ ht_res,
      runSucceeding_length exec pre [] [] ctx results hpre hn_pre fun tc _ => rfl]
    simp only [List.length_nil]
    omega

/-- C1 witness: the three-task workflow `A, B, C` under an oracle failing
exactly at `B`, evaluated concretely. -/
theorem execute_workflow_task_failure_propagation_witness :
    ∃ out, executeWorkflow [("wf", [taskA, taskB, taskC])] sampleExec "wf"
        = Except.ok out ∧
      out = markRemainingTasksAsFailed [taskC]
        (dinsert taskB.name (sampleExec taskB [("A", .dict [])])
          [("A", succeedingResult "A")])
        ("Skipped due to failure of " ++ taskB.name) ∧
      dfind taskB.name out = some (sampleExec taskB [("A", .dict [])]) ∧
      (∀ c ∈ [taskC], dfind c.name out
          = some (skippedResult c.name ("Skipped due to failure of " ++ taskB.name))) ∧
      out.length = [taskA].length + 1 + [taskC].length :=
  execute_workflow_task_failure_propagation sampleExec
    [("wf", [taskA, taskB, taskC])] "wf" [taskA] taskB [taskC]
    [("A", .dict [])] [("A", succeedingResult "A")]
    rfl (by decide) rfl rfl rfl

/-- C3: in every workflow execution that reaches a task `t` with all
earlier tasks succeeding, if some declared dependency of `t` has no entry
in the results map then `execute_workflow` records for `t` a failure
result whose error text contains `"<dep> (not executed)"` for every such
dependency (and `"<dep> (failed: <reason>)"` for every dependency whose
recorded result failed), marks every remaining declared task failed with
the fixed dependency-chain skip message without checking those tasks' own
dependencies (the map is literally the mark-remaining fold), and returns
the completed map without raising. -/
theorem execute_workflow_unmet_dependency_halts
    (exec : TaskConfig → Dict PyVal → TaskResult)
    (workflows : Dict (List TaskConfig)) (workflowName : String)
    (pre : List TaskConfig) (t : TaskConfig) (post : List TaskConfig)
    (ctx : Dict PyVal) (results : Dict TaskResult) (dep : String)
    (hwf : dfind workflowName workflows = some (pre ++ t :: post))
    (hnodup : ((pre ++ t :: post).map TaskConfig.name).Nodup)
    (hpre : runSucceedingTasks exec pre [] [] = some (ctx, results))
    (hdep : dep ∈ t.depends_on)
    (hmiss : dfind dep results = Option.none) :
    ∃ out, executeWorkflow workflows exec workflowName = Except.ok out ∧
      out = markRemainingTasksAsFailed post
        (dinsert t.name (depFailureResult t (failedDepsOf t results)) results)
        "Skipped due to workflow failure: dependency chain broken" ∧
      dfind t.name out = some (depFailureResult t (failedDepsOf t results)) ∧
      (depFailureResult t (failedDepsOf t results)).success = false ∧
      (depFailureResult t (failedDepsOf t results)).error
        = some ("Dependencies failed for " ++ t.name ++ ": "
            ++ pyJoin ", " (failedDepsOf t results)) ∧
      (∀ d ∈ t.depends_on, dfind d results = Option.none →
        substrOf (d ++ " (not executed)") (pyJoin ", " (failedDepsOf t results))) ∧
      (∀ d r, d ∈ t.depends_on → dfind d results = some r → r.success = false →
        substrOf (d ++ " (failed: " ++ optionStr r.error ++ ")")
          (pyJoin ", " (failedDepsOf t results))) ∧
      (∀ c ∈ post, dfind c.name out = some (skippedResult c.name
          "Skipped due to workflow failure: dependency chain broken")) ∧
      out.length = pre.length + 1 + post.length := by
  rw [List.map_append, List.map_cons] at hnodup
  obtain ⟨hn_pre, hn_rest, hdisj⟩ := List.nodup_append.mp hnodup
  obtain ⟨htn_post, hn_post⟩ := List.nodup_cons.mp hn_rest
  have htn_pre : t.name ∉ pre.map TaskConfig.name := fun hm =>
    hdisj hm (List.mem_cons_self _ _)
  have hcfresh : ∀ c ∈ post, c.name ∉ pre.map TaskConfig.name := fun c hc hm =>
    hdisj hm (List.mem_cons_of_mem _ (List.mem_map.mpr ⟨c, hc, rfl⟩))
  have hcne : ∀ c ∈ post, c.name ≠ t.name := fun c hc he =>
    htn_post (he ▸ List.mem_map.mpr ⟨c, hc, rfl⟩)
  have ht_res : dfind t.name results = Option.none :=
    runSucceeding_dfind_none exec pre [] [] ctx results t.name hpre rfl htn_pre
  have hc_res : ∀ c ∈ post,
      dfind c.name (dinsert t.name (depFailureResult t (failedDepsOf t results))
        results) = Option.none := by
    intro c hc
    rw [dfind_dinsert_ne _ _ _ _ fun he => hcne c hc he.symm]
    exact runSucceeding_dfind_none exec pre [] [] ctx results c.name hpre rfl
      (hcfresh c hc)
  have hne : (failedDepsOf t results).isEmpty = false :=
    failedDeps_isEmpty_false t results _ (mem_failedDeps_not_executed t results dep hdep hmiss)
  have hstep : executeWorkflowLoop exec (t :: post) ctx results
      = markRemainingTasksAsFailed post
          (dinsert t.name (depFailureResult t (failedDepsOf t results)) results)
          "Skipped due to workflow failure: dependency chain broken" := by
    simp [executeWorkflowLoop, hne]
  refine ⟨_, ?_, rfl, ?_, rfl, rfl, ?_, ?_, ?_, ?_⟩
  · simp only [executeWorkflow, hwf]
    rw [executeWorkflowLoop_of_runSucceeding exec pre (t :: post) [] [] ctx results hpre,
      hstep]
  · rw [dfind_markRemaining_not_mem _ _ _ _ htn_post]
    exact dfind_dinsert_self _ _ _
  · intro d hd hdm
    exact substrOf_pyJoin ", " _ _ (mem_failedDeps_not_executed t results d hd hdm)
  · intro d r hd hdm hrs
    exact substrOf_pyJoin ", " _ _ (mem_failedDeps_failed t results d r hd hdm hrs)
  · intro c hc
    exact dfind_markRemaining_mem _ _ _ _ hn_post hc
  · rw [length_markRemaining _ _ _ hn_post hc_res,
      length_dinsert_of_dfind_none _ _ _ ht_res,
      runSucceeding_length exec pre [] [] ctx results hpre hn_pre fun tc _ => rfl]
    simp only [List.length_nil]
    omega

/-- C3 witness: the workflow `A, U, C` where `U` declares the never-declared
dependency `Z`, evaluated concretely. -/
theorem execute_workflow_unmet_dependency_halts_witness :
    ∃ out, executeWorkflow [("wf", [taskA, taskU, taskC])] sampleExec "wf"
        = Except.ok out ∧
      out = markRemainingTasksAsFailed [taskC]
        (dinsert taskU.name
          (depFailureResult taskU (failedDepsOf taskU [("A", succeedingResult "A")]))
          [("A", succeedingResult "A")])
        "Skipped due to workflow failure: dependency chain broken" ∧
      dfind taskU.name out
        = some (depFailureResult taskU
            (failedDepsOf taskU [("A", succeedingResult "A")])) ∧
      (depFailureResult taskU
        (failedDepsOf taskU [("A", succeedingResult "A")])).success = false ∧
      (depFailureResult taskU
        (failedDepsOf taskU [("A", succeedingResult "A")])).error
        = some ("Dependencies failed for " ++ taskU.name ++ ": "
            ++ pyJoin ", " (failedDepsOf taskU [("A", succeedingResult "A")])) ∧
      (∀ d ∈ taskU.depends_on, dfind d [("A", succeedingResult "A")] = Option.none →
        substrOf (d ++ " (not executed)")
          (pyJoin ", " (failedDepsOf taskU [("A", succeedingResult "A")]))) ∧
      (∀ d r, d ∈ taskU.depends_on →
        dfind d [("A", succeedingResult "A")] = some r → r.success = false →
        substrOf (d ++ " (failed: " ++ optionStr r.error ++ ")")
          (pyJoin ", " (failedDepsOf taskU [("A", succeedingResult "A")]))) ∧
      (∀ c ∈ [taskC], dfind c.name out = some (skippedResult c.name
          "Skipped due to workflow failure: dependency chain broken")) ∧
      out.length = [taskA].length + 1 + [taskC].length :=
  execute_workflow_unmet_dependency_halts sampleExec
    [("wf", [taskA, taskU, taskC])] "wf" [taskA] taskU [taskC]
    [("A", .dict [])] [("A", succeedingResult "A")] "Z"
    rfl (by decide) rfl (by decide) rfl

/-- C2: for every key, workflow-parameter map, task scope and default,
`get_param` returns the value of the highest-precedence tier that has a
match, tagged with exactly that tier: the tier named by the returned
source tag contributes exactly the returned value, every strictly
higher-precedence tier has no match (so a lower tier never overrides an
earlier match), and a DEFAULT tag means the caller's default was
returned. -/
theorem getParam_first_match_precedence
    (st : ConfigState) (key : String) (workflowParams : Option (Dict PyVal))
    (taskScope : Option String) (default : PyVal) :
    tierValue st key workflowParams taskScope default
        (getParam st key workflowParams taskScope default).source
      = some (getParam st key workflowParams taskScope default).value ∧
    (∀ src, srcRank src
        < srcRank (getParam st key workflowParams taskScope default).source →
      tierValue st key workflowParams taskScope default src = Option.none) ∧
    ((getParam st key workflowParams taskScope default).source = ConfigSource.DEFAULT →
      (getParam st key workflowParams taskScope default).value = default) := by
  simp only [getParam]
  cases hc : getCliParam st.typerParams key with
  | some v =>
      refine ⟨by simp [tierValue, hc], ?_, by simp⟩
      intro src hlt
      cases src <;> simp [srcRank] at hlt
  | none =>
      by_cases hw : (tryGetParam (workflowParams.getD []) key Option.none).isNone
      · simp only [hw, Bool.not_true, Bool.false_eq_true, if_false]
        cases he : dfind (envVarName key) st.environ with
        | some ev =>
            refine ⟨by simp [tierValue, he], ?_, by simp⟩
            intro src hlt
            cases src <;>
              simp_all [srcRank, tierValue, hc, hw, he]
        | none =>
            by_cases hes : (tryGetParam st.env_settings key taskScope).isNone
            · simp only [hes, Bool.not_true, Bool.false_eq_true, if_false]
              by_cases hbs : (tryGetParam st.base_settings key taskScope).isNone
              · simp only [hbs, Bool.not_true, Bool.false_eq_true, if_false]
                refine ⟨by simp [tierValue], ?_, by simp⟩
                intro src hlt
                cases src <;>
                  simp_all [srcRank, tierValue, hc, hw, he, hes, hbs]
              · simp only [hbs, Bool.not_false, if_true]
                refine ⟨by simp [tierValue, hbs], ?_, by simp⟩
                intro src hlt
                cases src <;>
                  simp_all [srcRank, tierValue, hc, hw, he, hes]
            · simp only [hes, Bool.not_false, if_true]
              refine ⟨by simp [tierValue, hes], ?_, by simp⟩
              intro src hlt
              cases src <;>
                simp_all [srcRank, tierValue, hc, hw, he]
      · simp only [hw, Bool.not_false, if_true]
        refine ⟨by simp [tierValue, hw], ?_, by simp⟩
        intro src hlt
        cases src <;> simp_all [srcRank, tierValue, hc]

/-- C2 witness: a concrete state resolving from the base-settings tier,
with every higher tier checked empty. -/
theorem getParam_first_match_precedence_witness :
    tierValue sampleConfigState "k" Option.none Option.none PyVal.noneV
        (getParam sampleConfigState "k" Option.none Option.none PyVal.noneV).source
      = some (getParam sampleConfigState "k" Option.none Option.none PyVal.noneV).value ∧
    tierValue sampleConfigState "k" Option.none Option.none PyVal.noneV
        ConfigSource.WORKFLOW = Option.none :=
  ⟨(getParam_first_match_precedence sampleConfigState "k" Option.none Option.none
      PyVal.noneV).1,
   (getParam_first_match_precedence sampleConfigState "k" Option.none Option.none
      PyVal.noneV).2.1 ConfigSource.WORKFLOW (by decide)⟩

/-- C4 counterexample: with task scope `sc` and a workflow parameter map
holding both a scoped entry under `sc` and a plain entry for `k`,
`get_param` resolves the workflow tier to the plain value even though the
scoped key is present and reachable — the scoped form is never tried in
the workflow tier, refuting the claim that every tier (including the
workflow-parameter tier) tries the scoped key first. -/
theorem workflow_tier_ignores_scope_counterexample :
    getParam ⟨Option.none, [], [], []⟩ "k" (some sampleWorkflowParams) (some "sc")
        PyVal.noneV
      = ⟨PyVal.str "plain", ConfigSource.WORKFLOW⟩ ∧
    getFromDict sampleWorkflowParams "sc.k" = PyVal.str "scoped" :=
  ⟨rfl, rfl⟩

/-- C4 amended: when a (non-empty) task scope is given, the
environment-settings and base-settings tiers try the scoped key
`"{task_scope}.{key}"` before the plain key and never fall to a lower tier
before both forms have been tried in the current tier; the
workflow-parameter tier, however, consults only the plain key, so
resolution there is independent of any scoped workflow entries. -/
theorem scoped_lookup_settings_tiers_amended
    (st : ConfigState) (key : String) (workflowParams : Option (Dict PyVal))
    (s : String) (default : PyVal) (hs : s ≠ "")
    (hc : getCliParam st.typerParams key = Option.none)
    (hw : (getFromDict (workflowParams.getD []) key).isNone = true)
    (he : dfind (envVarName key) st.environ = Option.none) :
    (getParam st key workflowParams (some s) default
      = getParam st key Option.none (some s) default) ∧
    ((getFromDict st.env_settings (s ++ "." ++ key)).isNone = false →
      getParam st key workflowParams (some s) default
        = ⟨getFromDict st.env_settings (s ++ "." ++ key),
           ConfigSource.ENVIRONMENT_SETTINGS⟩) ∧
    ((getFromDict st.env_settings (s ++ "." ++ key)).isNone = true →
      (getFromDict st.env_settings key).isNone = false →
      getParam st key workflowParams (some s) default
        = ⟨getFromDict st.env_settings key, ConfigSource.ENVIRONMENT_SETTINGS⟩) ∧
    ((getFromDict st.env_settings (s ++ "." ++ key)).isNone = true →
      (getFromDict st.env_settings key).isNone = true →
      (getFromDict st.base_settings (s ++ "." ++ key)).isNone = false →
      getParam st key workflowParams (some s) default
        = ⟨getFromDict st.base_settings (s ++ "." ++ key),
           ConfigSource.BASE_SETTINGS⟩) ∧
    ((getFromDict st.env_settings (s ++ "." ++ key)).isNone = true →
      (getFromDict st.env_settings key).isNone = true →
      (getFromDict st.base_settings (s ++ "." ++ key)).isNone = true →
      (getFromDict st.base_settings key).isNone = false →
      getParam st key workflowParams (some s) default
        = ⟨getFromDict st.base_settings key, ConfigSource.BASE_SETTINGS⟩) := by
  have hwp : tryGetParam (workflowParams.getD []) key Option.none
      = getFromDict (workflowParams.getD []) key := rfl
  have hw1 : (tryGetParam (workflowParams.getD []) key Option.none).isNone = true := by
    rw [hwp]
    exact hw
  have hw2 : (tryGetParam ([] : Dict PyVal) key Option.none).isNone = true := by
    rw [tryGetParam_nil]
    rfl
  refine ⟨?_, ?_, ?_, ?_, ?_⟩
  · simp only [getParam, hc]
    simp [hw1, hw2]
  · intro hsc
    simp only [getParam, hc, hwp, hw, Bool.not_true, Bool.false_eq_true, if_false, he]
    simp [tryGetParam, hs, hsc]
  · intro hsc hpl
    simp only [getParam, hc, hwp, hw, Bool.not_true, Bool.false_eq_true, if_false, he]
    simp [tryGetParam, hs, hsc, hpl]
  · intro hsc hpl hbsc
    simp only [getParam, hc, hwp, hw, Bool.not_true, Bool.false_eq_true, if_false, he]
    simp [tryGetParam, hs, hsc, hpl, hbsc]
  · intro hsc hpl hbsc hbpl
    simp only [getParam, hc, hwp, hw, Bool.not_true, Bool.false_eq_true, if_false, he]
    simp [tryGetParam, hs, hsc, hpl, hbsc, hbpl]

/-- C4 amended witness: with a scoped-only workflow map the result equals
resolution without workflow parameters, and the scoped base-settings entry
wins for scope `t`. -/
theorem scoped_lookup_settings_tiers_amended_witness :
    (getParam sampleConfigState "k" (some scopedOnlyParams) (some "t") PyVal.noneV
      = getParam sampleConfigState "k" Option.none (some "t") PyVal.noneV) ∧
    getParam sampleConfigState "k" (some scopedOnlyParams) (some "t") PyVal.noneV
      = ⟨PyVal.str "scoped", ConfigSource.BASE_SETTINGS⟩ :=
  ⟨(scoped_lookup_settings_tiers_amended sampleConfigState "k" (some scopedOnlyParams)
      "t" PyVal.noneV (by decide) rfl rfl rfl).1,
   (scoped_lookup_settings_tiers_amended sampleConfigState "k" (some scopedOnlyParams)
      "t" PyVal.noneV (by decide) rfl rfl rfl).2.2.2.1 rfl rfl rfl⟩

/-- C9: a tier whose stored value is python `None` is treated as not
found: a resolved value from any tier other than DEFAULT is never `None`;
a workflow-parameter map whose lookup yields `None` resolves exactly as if
the map were absent; and an environment- or base-settings file whose
(scoped-then-plain) lookup yields `None` resolves exactly as if that file
were empty, so resolution falls through to lower tiers and may end at the
caller's default. -/
theorem getParam_null_treated_as_not_found
    (st : ConfigState) (key : String) (workflowParams : Option (Dict PyVal))
    (taskScope : Option String) (default : PyVal) :
    ((getParam st key workflowParams taskScope default).source ≠ ConfigSource.DEFAULT →
      ((getParam st key workflowParams taskScope default).value).isNone = false) ∧
    (getFromDict (workflowParams.getD []) key = PyVal.noneV →
      getParam st key workflowParams taskScope default
        = getParam st key Option.none taskScope default) ∧
    (tryGetParam st.env_settings key taskScope = PyVal.noneV →
      getParam st key workflowParams taskScope default
        = getParam { st with env_settings := [] } key workflowParams taskScope default) ∧
    (tryGetParam st.base_settings key taskScope = PyVal.noneV →
      getParam st key workflowParams taskScope default
        = getParam { st with base_settings := [] } key workflowParams taskScope default) := by
  refine ⟨?_, ?_, ?_, ?_⟩
  · intro hnd
    simp only [getParam] at hnd ⊢
    cases hc : getCliParam st.typerParams key with
    | some v => simp [hc, PyVal.isNone]
    | none =>
        simp only [hc] at hnd ⊢
        by_cases hw : (tryGetParam (workflowParams.getD []) key Option.none).isNone
        · simp only [hw, Bool.not_true, Bool.false_eq_true, if_false] at hnd ⊢
          cases he : dfind (envVarName key) st.environ with
          | some ev => simp [he, PyVal.isNone]
          | none =>
              simp only [he] at hnd ⊢
              by_cases hes : (tryGetParam st.env_settings key taskScope).isNone
              · simp only [hes, Bool.not_true, Bool.false_eq_true, if_false] at hnd ⊢
                by_cases hbs : (tryGetParam st.base_settings key taskScope).isNone
                · simp only [hbs, Bool.not_true, Bool.false_eq_true, if_false] at hnd
                  exact absurd rfl hnd
                · simp [hbs]
              · simp [hes]
        · simp [hw]
  · intro h2
    simp only [getParam]
    cases hc : getCliParam st.typerParams key with
    | some v => rfl
    | none =>
        have hl : (tryGetParam (workflowParams.getD []) key Option.none).isNone = true := by
          rw [show tryGetParam (workflowParams.getD []) key Option.none
            = getFromDict (workflowParams.getD []) key from rfl, h2]
          rfl
        have hr : (tryGetParam ([] : Dict PyVal) key Option.none).isNone = true := by
          rw [tryGetParam_nil]
          rfl
        simp [hl, hr]
  · intro h3
    simp only [getParam]
    cases hc : getCliParam st.typerParams key with
    | some v => rfl
    | none => simp [h3, tryGetParam_nil, PyVal.isNone]
  · intro h4
    simp only [getParam]
    cases hc : getCliParam st.typerParams key with
    | some v => rfl
    | none => simp [h4, tryGetParam_nil, PyVal.isNone]

/-- C9 witness: a workflow map binding `k` explicitly to `None` falls
through to the base-settings value, and the resolved non-default value is
not `None`. -/
theorem getParam_null_treated_as_not_found_witness :
    ((getParam sampleConfigState "k" (some [("k", PyVal.noneV)]) Option.none
        PyVal.noneV).value).isNone = false ∧
    getParam sampleConfigState "k" (some [("k", PyVal.noneV)]) Option.none PyVal.noneV
      = getParam sampleConfigState "k" Option.none Option.none PyVal.noneV :=
  ⟨(getParam_null_treated_as_not_found sampleConfigState "k"
      (some [("k", PyVal.noneV)]) Option.none PyVal.noneV).1 (by decide),
   (getParam_null_treated_as_not_found sampleConfigState "k"
      (some [("k", PyVal.noneV)]) Option.none PyVal.noneV).2.1 rfl⟩

/-- C5: when a task's `execute()` raises an uncaught exception, the
engine's `_execute_task` wrapper does not propagate it: it returns a
TaskResult with `success=False` whose error is the raw exception text, so
the dispatch always produces a result instead of crashing the run. -/
theorem execute_task_converts_uncaught_exception
    (tc : TaskConfig) (initSt : TaskState)
    (execFn : Dict PyVal → Except String TaskResult)
    (rounds : List (List ReviewChoice)) (e : String)
    (hraise : execFn initSt.params = Except.error e) :
    executeTask tc initSt (Except.ok ()) execFn rounds
      = some (exceptionResult tc.name e) ∧
    (exceptionResult tc.name e).success = false ∧
    (exceptionResult tc.name e).error = some e := by
  refine ⟨?_, rfl, rfl⟩
  simp [executeTask, hraise]

/-- C5 witness: a task whose execution raises `boom`, evaluated
concretely. -/
theorem execute_task_converts_uncaught_exception_witness :
    executeTask taskA ⟨[], []⟩ (Except.ok ()) (fun _ => Except.error "boom") []
      = some (exceptionResult taskA.name "boom") ∧
    (exceptionResult taskA.name "boom").success = false ∧
    (exceptionResult taskA.name "boom").error = some "boom" :=
  execute_task_converts_uncaught_exception taskA ⟨[], []⟩
    (fun _ => Except.error "boom") [] "boom" rfl

/-- C6 counterexample: with human review enabled and a successful first
result, a single "re-run" decision whose re-execution returns a failed
result terminates the review loop with that failed result, although the
operator never chose approve or reject — so the loop does not terminate
only on approve/reject, and the new result is not re-presented. -/
theorem review_loop_rerun_termination_counterexample :
    runReviewLoop true "t" (fun _ => Except.ok (failingResult "t"))
        [[ReviewChoice.rerunWith []]] ⟨[], []⟩ (succeedingResult "t")
      = some (failingResult "t") ∧
    (failingResult "t").success = false :=
  ⟨rfl, rfl⟩

/-- C6 amended: a "re-run" decision never terminates the review loop by
itself: the loop always continues with the re-executed result, and that
result is re-presented for review whenever it succeeds; the loop
terminates only when approve or reject is chosen, or when a re-execution
returns a failed result (or raises). -/
theorem review_loop_rerun_continues_amended
    (taskName : String) (execFn : Dict PyVal → Except String TaskResult)
    (round : List ReviewChoice) (rounds : List (List ReviewChoice))
    (st : TaskState) (result : TaskResult) (p' : Dict PyVal)
    (s' : Dict ParamInfo) (r' : TaskResult)
    (hres : result.success = true)
    (hrev : getUserReview st.params st.sources round = some ("re-run", p', s'))
    (hexec : execFn p' = Except.ok r') :
    runReviewLoop true taskName execFn (round :: rounds) st result
      = runReviewLoop true taskName execFn rounds ⟨p', s'⟩ r' ∧
    (r'.success = false →
      runReviewLoop true taskName execFn (round :: rounds) st result = some r') := by
  have h1 : runReviewLoop true taskName execFn (round :: rounds) st result
      = runReviewLoop true taskName execFn rounds ⟨p', s'⟩ r' := by
    simp [runReviewLoop, hres, hrev, hexec]
  refine ⟨h1, fun hf => ?_⟩
  rw [h1]
  cases rounds <;> simp [runReviewLoop, hf]

/-- C6 amended witness: a re-run whose new execution fails, evaluated
concretely: the loop continues into the new result and, as it failed,
returns it. -/
theorem review_loop_rerun_continues_amended_witness :
    (runReviewLoop true "t" (fun _ => Except.ok (failingResult "t"))
        [[ReviewChoice.rerunWith []]] ⟨[], []⟩ (succeedingResult "t")
      = runReviewLoop true "t" (fun _ => Except.ok (failingResult "t")) []
          ⟨[], []⟩ (failingResult "t")) ∧
    ((failingResult "t").success = false →
      runReviewLoop true "t" (fun _ => Except.ok (failingResult "t"))
          [[ReviewChoice.rerunWith []]] ⟨[], []⟩ (succeedingResult "t")
        = some (failingResult "t")) :=
  review_loop_rerun_continues_amended "t" (fun _ => Except.ok (failingResult "t"))
    [ReviewChoice.rerunWith []] [] ⟨[], []⟩ (succeedingResult "t") [] []
    (failingResult "t") rfl rfl rfl

/-- C7 counterexample: a re-run prompt with no override lines does not
always signal "re-run": with workflow parameter `a` present but absent
from `param_sources`, applying the unchanged map raises the
unknown-parameter ValueError and `get_user_review` returns "rejected"
instead. -/
theorem rerun_no_overrides_counterexample :
    getUserReview sampleParams [] [ReviewChoice.rerunWith []]
      = some ("rejected", sampleParams, []) :=
  rfl

/-- C7 amended: provided every key of the task's workflow parameter map
was resolved into `param_sources` with a type-compatible value (and the
map has no duplicate keys), a re-run prompt with no override lines leaves
the parameter map unchanged, signals "re-run", and the re-execution is
invoked on exactly the unchanged map. -/
theorem rerun_no_overrides_idempotent_amended
    (params : Dict PyVal) (sources : Dict ParamInfo)
    (hkeys : (dkeys params).Nodup)
    (htracked : ∀ k v, (k, v) ∈ params → ∃ info, dfind k sources = some info ∧
        pyIsinstance v (pyType info.value) = true) :
    getUpdatedParameters params sources [] = params ∧
    ∃ s', getUserReview params sources [ReviewChoice.rerunWith []]
        = some ("re-run", params, s') ∧
      ∀ (taskName : String) (execFn : Dict PyVal → Except String TaskResult)
        (rounds : List (List ReviewChoice)) (result : TaskResult),
        result.success = true →
        runReviewLoop true taskName execFn ([ReviewChoice.rerunWith []] :: rounds)
            ⟨params, sources⟩ result
          = (match execFn params with
             | Except.ok r' => runReviewLoop true taskName execFn rounds ⟨params, s'⟩ r'
             | Except.error e => some (exceptionResult taskName e)) := by
  obtain ⟨s', hupd⟩ := updateTaskParameters_ok_of_tracked params params sources
    fun k v hm => ⟨dfind_eq_of_mem_nodup params k v hkeys hm, htracked k v hm⟩
  have hrev : getUserReview params sources [ReviewChoice.rerunWith []]
      = some ("re-run", params, s') := by
    simp only [getUserReview, getUpdatedParameters, updatedParamsLoop, hupd]
  refine ⟨rfl, s', hrev, ?_⟩
  intro taskName execFn rounds result hres
  cases hce : execFn params with
  | ok r' => simp [runReviewLoop, hres, hrev, hce]
  | error e => simp [runReviewLoop, hres, hrev, hce]

/-- C7 amended witness: a single tracked integer parameter, no override
lines: the map is unchanged, "re-run" is signalled, and re-execution gets
the same map. -/
theorem rerun_no_overrides_idempotent_amended_witness :
    getUpdatedParameters sampleParams sampleSources [] = sampleParams ∧
    ∃ s', getUserReview sampleParams sampleSources [ReviewChoice.rerunWith []]
        = some ("re-run", sampleParams, s') ∧
      ∀ (taskName : String) (execFn : Dict PyVal → Except String TaskResult)
        (rounds : List (List ReviewChoice)) (result : TaskResult),
        result.success = true →
        runReviewLoop true taskName execFn ([ReviewChoice.rerunWith []] :: rounds)
            ⟨sampleParams, sampleSources⟩ result
          = (match execFn sampleParams with
             | Except.ok r' => runReviewLoop true taskName execFn rounds
                 ⟨sampleParams, s'⟩ r'
             | Except.error e => some (exceptionResult taskName e)) :=
  rerun_no_overrides_idempotent_amended sampleParams sampleSources (by decide)
    (by
      intro k v hm
      rw [show sampleParams = [("a", PyVal.int 1)] from rfl,
        List.mem_singleton] at hm
      simp only [Prod.mk.injEq] at hm
      obtain ⟨hk, hv⟩ := hm
      subst hk
      subst hv
      exact ⟨⟨PyVal.int 1, ConfigSource.WORKFLOW⟩, rfl, rfl⟩)

/-- C10: when the reviewer selects re-run and the task's workflow
parameter map contains a key never resolved into `param_sources`, applying
the collected updates raises ValueError or TypeError, `get_user_review`
returns "rejected" instead of "re-run", and the engine consequently marks
the task failed with the fixed error "Rejected by human review" although
the operator never chose reject. -/
theorem rerun_with_untracked_param_rejects
    (params : Dict PyVal) (sources : Dict ParamInfo) (lines : List String)
    (rest : List ReviewChoice) (k : String) (v : PyVal)
    (hm : (k, v) ∈ params) (hk : dfind k sources = Option.none) :
    (∃ p' s', getUserReview params sources (ReviewChoice.rerunWith lines :: rest)
        = some ("rejected", p', s')) ∧
    ∀ (taskName : String) (execFn : Dict PyVal → Except String TaskResult)
      (rounds : List (List ReviewChoice)) (result : TaskResult),
      result.success = true →
      runReviewLoop true taskName execFn
          ((ReviewChoice.rerunWith lines :: rest) :: rounds) ⟨params, sources⟩ result
        = some { result with success := false,
                             error := some "Rejected by human review" } := by
  obtain ⟨v₁, hv₁⟩ := dfind_some_of_mem params k v hm
  have hupd : dfind k (getUpdatedParameters params sources lines) = some v₁ := by
    rw [getUpdatedParameters, dfind_updatedParamsLoop_of_untracked sources lines k
      params hk]
    exact hv₁
  have hmem' := mem_of_dfind_eq_some _ _ _ hupd
  obtain ⟨e, p', s', herr⟩ := updateTaskParameters_error_of_untracked
    (getUpdatedParameters params sources lines) params sources k v₁ hmem' hk
  have hrev : getUserReview params sources (ReviewChoice.rerunWith lines :: rest)
      = some ("rejected", p', s') := by
    simp [getUserReview, herr]
  refine ⟨⟨p', s', hrev⟩, ?_⟩
  intro taskName execFn rounds result hres
  simp [runReviewLoop, hres, hrev]

/-- C10 witness: workflow parameter `a` never resolved into
`param_sources`: option 2 yields "rejected" and the engine records the
fixed rejection failure. -/
theorem rerun_with_untracked_param_rejects_witness :
    (∃ p' s', getUserReview sampleParams [] [ReviewChoice.rerunWith []]
        = some ("rejected", p', s')) ∧
    ∀ (taskName : String) (execFn : Dict PyVal → Except String TaskResult)
      (rounds : List (List ReviewChoice)) (result : TaskResult),
      result.success = true →
      runReviewLoop true taskName execFn
          ([ReviewChoice.rerunWith []] :: rounds) ⟨sampleParams, []⟩ result
        = some { result with success := false,
                             error := some "Rejected by human review" } :=
  rerun_with_untracked_param_rejects sampleParams [] [] [] "a" (PyVal.int 1)
    (List.mem_cons_self _ _) rfl

/-- C8: `track_async_progress` returns a list of the same length and order
as its input: entry i holds the i-th operation's value when it completed
and None when it raised, and an entry depends only on its own operation's
outcome — one operation's failure never alters a sibling's entry, so
partial results are always returned for the batch. -/
theorem track_async_progress_order_and_isolation {α : Type}
    (tasks : List (Except String α)) :
    (trackAsyncProgress tasks).length = tasks.length ∧
    (∀ i : Nat, (trackAsyncProgress tasks)[i]? = (tasks[i]?).map collectOutcome) ∧
    (∀ (tasks₂ : List (Except String α)) (i : Nat),
      tasks[i]? = tasks₂[i]? →
      (trackAsyncProgress tasks)[i]? = (trackAsyncProgress tasks₂)[i]?) := by
  have hmap : ∀ (ts : List (Except String α)),
      trackAsyncProgress ts = ts.map collectOutcome := by
    intro ts
    unfold trackAsyncProgress
    rw [show ts.enum = List.enumFrom 0 ts from rfl,
      foldl_set_enumFrom collectOutcome ts 0
        (List.replicate ts.length Option.none) (by simp)]
    simp
  refine ⟨?_, ?_, ?_⟩
  · rw [hmap]
    simp
  · intro i
    rw [hmap]
    exact List.getElem?_map collectOutcome tasks i
  · intro ts₂ i h
    rw [hmap, hmap, List.getElem?_map, List.getElem?_map, h]

/-- C8 witness: a three-operation batch whose middle operation raises,
compared entrywise with a different batch agreeing only at index 2. -/
theorem track_async_progress_order_and_isolation_witness :
    (trackAsyncProgress [Except.ok 1, Except.error "e", Except.ok (3 : Nat)]).length
      = [Except.ok 1, Except.error "e", Except.ok (3 : Nat)].length ∧
    (trackAsyncProgress [Except.ok 1, Except.error "e", Except.ok (3 : Nat)])[1]?
      = ([Except.ok 1, Except.error "e", Except.ok (3 : Nat)][1]?).map collectOutcome ∧
    (trackAsyncProgress [Except.ok 1, Except.error "e", Except.ok (3 : Nat)])[2]?
      = (trackAsyncProgress [Except.error "x", Except.ok 5, Except.ok (3 : Nat)])[2]? :=
  ⟨(track_async_progress_order_and_isolation
      [Except.ok 1, Except.error "e", Except.ok (3 : Nat)]).1,
   (track_async_progress_order_and_isolation
      [Except.ok 1, Except.error "e", Except.ok (3 : Nat)]).2.1 1,
   (track_async_progress_order_and_isolation
      [Except.ok 1, Except.error "e", Except.ok (3 : Nat)]).2.2
     [Except.error "x", Except.ok 5, Except.ok (3 : Nat)] 2 rfl⟩

end NBG
